import Mathlib

/-!
# Verification of the rpscript-api-basic verb library core

Shallow embedding, in Lean 4, of the core mechanisms of the
`rpscript-api-basic` plugin (TypeScript): the shared variable
environment written by the `as`/`assign` verbs, the ramda-style
currying adapter used by the math verbs (`pow`, `math-min`,
`math-max`) and by the blocking `wait` verb, the non-blocking
`wait` verb, the deferred-expression evaluator (`eval` verb), and
the `get-element` traversal verb.

JavaScript numbers are modelled as `ℚ` (every numeric literal in
the verified examples is exactly representable in double
precision, and the operations involved — comparison, addition,
exponentiation with small natural exponents — are exact on them).
Promise wrappers are dropped: each verb is modelled by the value
its promise resolves with.  Timing (setTimeout periods, the
`Atomics.wait` busy-wait) is out of scope; only resolved values
are modelled.
-/

/-! ## VariableEnvironment: the `as` / `assign` verbs

Source: `src/src/index.ts` lines 94-104 (`as`) and 117-127
(`assign`).  `ctx.variables` is a JS object used as a string-keyed
map; we model it as an association list where assignment prepends
a binding and lookup returns the most recent one.  -/

/-- JS `String.prototype.trim` whitespace test, restricted to the
ASCII whitespace characters that can occur in script text. -/
def isJsSpace (c : Char) : Bool :=
  c = ' ' || c = '\t' || c = '\n' || c = '\r'

/-- Model of JS `variable.trim()`: strip leading and trailing
whitespace. -/
def jsTrim (s : String) : String :=
  ⟨((s.data.dropWhile isJsSpace).reverse.dropWhile isJsSpace).reverse⟩

/-- Model of the JS test `variable.charAt(0) === '\x24'`: on the empty
string `charAt(0)` returns `""`, which is not `"$"`, so the result
is `false` there, matching the source's behaviour. -/
def headIsDollar (s : String) : Bool :=
  s.data.headD ' ' = '$'

/-- Model of JS property update `ctx.variables[k] = v`: prepend the
binding; `lookupVar` below returns the most recent binding for a
key, so this is observationally the JS overwrite-or-insert. -/
def setVar {α : Type} (vars : List (String × α)) (k : String) (v : α) :
    List (String × α) :=
  (k, v) :: vars

/-- Model of JS property read `ctx.variables[k]` (and of scope
lookup in the expression evaluator): most recent binding, `none`
for the `undefined` miss sentinel. -/
def lookupVar {κ α : Type} [DecidableEq κ] : List (κ × α) → κ → Option α
  | [], _ => none
  | (k2, v) :: rest, k => if k2 = k then some v else lookupVar rest k

/-- Embedding of the verb `as` (src/src/index.ts:94-104):
trims the name, stores the value under the trimmed name, then —
adding a `$` only when the first character is not already `$` —
stores it again under the `$`-form, and returns the value. -/
def asVerb {α : Type} (vars : List (String × α)) (varName : String)
    (value : α) : List (String × α) × α :=
  let v1 := jsTrim varName
  let vars1 := setVar vars v1 value
  let v2 := if headIsDollar v1 then v1 else "$" ++ v1
  let vars2 := setVar vars1 v2 value
  (vars2, value)

/-- Embedding of the verb `assign` (src/src/index.ts:117-127); its
body is textually identical to `as`. -/
def assignVerb {α : Type} (vars : List (String × α)) (varName : String)
    (value : α) : List (String × α) × α :=
  let v1 := jsTrim varName
  let vars1 := setVar vars v1 value
  let v2 := if headIsDollar v1 then v1 else "$" ++ v1
  let vars2 := setVar vars1 v2 value
  (vars2, value)

/-- The `$`-form of a (trimmed) name: the key the source's second
store writes (src/src/index.ts:99-101). -/
def dollarForm (t : String) : String :=
  if headIsDollar t then t else "$" ++ t

example : jsTrim "  period " = "period" := by decide

example : asVerb ([] : List (String × ℕ)) "period" 5
    = ([("$period", 5), ("period", 5)], 5) := by decide

example : asVerb ([] : List (String × ℕ)) "$val" 7
    = ([("$val", 7), ("$val", 7)], 7) := by decide

example : lookupVar (asVerb ([] : List (String × ℕ)) "$val" 7).1 "val"
    = none := by decide

/-! ## CurryAdapter: ramda `R.curry` / `R.curryN` at arity 2

Source: the math verbs (`src/src/index.ts` 266-269, 281-284,
316-319) each do `R.apply(R.curry(fn), args)` or
`R.apply(R.curryN(2, fn), args)`, and the blocking `wait`
(198-211) curries a 2-parameter closure.  Ramda's `_curryN`
concatenates the received arguments with the new ones; once the
combined count reaches the declared arity it calls the wrapped JS
function with ALL combined arguments (variadic functions such as
`Math.min` therefore see every argument), otherwise it returns a
new curried callable holding the combined list.  The wrapped JS
function is modelled as `List α → α` (JS functions receive the
whole argument list; fixed-parameter functions read a prefix). -/

/-- A ramda-curried function of declared arity 2: the wrapped
function plus the arguments received so far (fewer than 2). -/
structure Curry2 (α : Type) where
  fn : List α → α
  received : List α

/-- Outcome of invoking a curried function: a concrete `Result`
value once saturated, or a new callable still awaiting
arguments. -/
inductive CurryOutcome (α : Type) where
  | result (v : α)
  | moreArgs (c : Curry2 α)

/-- One invocation of a ramda arity-2 curried function
(`_curryN`): concatenate, then either apply the wrapped function
to the full combined list or return a new curried callable. -/
def Curry2.call {α : Type} (c : Curry2 α) (args : List α) : CurryOutcome α :=
  let combined := c.received ++ args
  if 2 ≤ combined.length then .result (c.fn combined)
  else .moreArgs ⟨c.fn, combined⟩

/-- The error raised by the JS runtime when a non-function value
is invoked (the spec's `NotCallableError`). -/
inductive CurryErr where
  | notCallable
deriving DecidableEq

/-- Invoking a `CurryOutcome` as a function: a still-curried
callable accepts the arguments; a fully-resolved `Result` value is
not callable and invoking it is the `NotCallableError`. -/
def CurryOutcome.invoke {α : Type} :
    CurryOutcome α → List α → Except CurryErr (CurryOutcome α)
  | .moreArgs c, args => .ok (c.call args)
  | .result _, _ => .error .notCallable

/-- A sequence of invocations: each step invokes the previous
outcome with the next argument list. -/
def invokeChain {α : Type} :
    CurryOutcome α → List (List α) → Except CurryErr (CurryOutcome α)
  | c, [] => .ok c
  | c, args :: rest =>
    match c.invoke args with
    | .ok c2 => invokeChain c2 rest
    | .error e => .error e

/-- The `Result` value of an outcome, `none` when it is still a
callable. -/
def CurryOutcome.resultVal {α : Type} : CurryOutcome α → Option α
  | .result v => some v
  | .moreArgs _ => none

/-- Whether the outcome is still a callable awaiting arguments. -/
def CurryOutcome.isCallable {α : Type} : CurryOutcome α → Bool
  | .result _ => false
  | .moreArgs _ => true

/-- Invoke an outcome once and read off the resulting `Result`
value (`none` on `NotCallableError` or if still unsaturated). -/
def invokeVal {α : Type} (c : CurryOutcome α) (args : List α) : Option α :=
  match c.invoke args with
  | .ok o => o.resultVal
  | .error _ => none

/-- Model of `Math.pow` as the JS runtime hands it its argument
list: a 2-parameter function reads the first two combined
arguments and ignores extras.  On natural inputs `Math.pow` is
exact, so it is `Nat.pow` here. -/
def mathPowFn (l : List ℕ) : ℕ :=
  (l.getD 0 0) ^ (l.getD 1 0)

/-- Embedding of the verb `pow` (src/src/index.ts:316-319):
`R.apply(R.curry(Math.pow), args)` — `Math.pow.length = 2`, so
`R.curry` is `R.curryN(2, ·)` with nothing received yet. -/
def powerVerb (args : List ℕ) : CurryOutcome ℕ :=
  Curry2.call ⟨mathPowFn, []⟩ args

/-- Binary minimum on exact JS numbers (ties, where `≤` and `<`
differ, return the same value either way). -/
def jsMin2 (x y : ℚ) : ℚ := if x ≤ y then x else y

/-- Binary maximum on exact JS numbers. -/
def jsMax2 (x y : ℚ) : ℚ := if y ≤ x then x else y

/-- Variadic `Math.min` over the full argument list.  The empty
case is JS `Infinity`, which is unreachable here because the
curry adapter only applies the function once at least 2 arguments
are combined; it is mapped to `0`. -/
def jsMinList : List ℚ → ℚ
  | [] => 0
  | x :: xs => xs.foldl jsMin2 x

/-- Variadic `Math.max` over the full argument list (empty case
`-Infinity`, unreachable, mapped to `0`). -/
def jsMaxList : List ℚ → ℚ
  | [] => 0
  | x :: xs => xs.foldl jsMax2 x

/-- Embedding of the verb `math-min` (src/src/index.ts:281-284):
`R.apply(R.curryN(2, Math.min), num)`. -/
def mathMinVerb (num : List ℚ) : CurryOutcome ℚ :=
  Curry2.call ⟨jsMinList, []⟩ num

/-- Embedding of the verb `math-max` (src/src/index.ts:266-269):
`R.apply(R.curryN(2, Math.max), num)`. -/
def mathMaxVerb (num : List ℚ) : CurryOutcome ℚ :=
  Curry2.call ⟨jsMaxList, []⟩ num

example : (powerVerb [2, 3]).resultVal = some 8 := by decide
example : invokeVal (powerVerb [2]) [3] = some 8 := by decide
example : invokeVal (powerVerb []) [2, 3] = some 8 := by decide
example : (mathMinVerb [9]).isCallable = true := rfl
example : invokeVal (mathMinVerb [9]) [3] = some 3 := by
  norm_num [invokeVal, mathMinVerb, Curry2.call, CurryOutcome.invoke,
    CurryOutcome.resultVal, jsMinList, jsMin2]
example : (mathMinVerb [7, 1]).resultVal = some 1 := by
  norm_num [mathMinVerb, Curry2.call, CurryOutcome.resultVal, jsMinList, jsMin2]
example : (mathMinVerb [5.1, 1.2, 3.3]).resultVal = some 1.2 := by
  norm_num [mathMinVerb, Curry2.call, CurryOutcome.resultVal, jsMinList, jsMin2]
example : (mathMaxVerb [5.1, 1.2, 3.3]).resultVal = some 5.1 := by
  norm_num [mathMaxVerb, Curry2.call, CurryOutcome.resultVal, jsMaxList, jsMax2]

/-! ## SynchronousDelay: the two `wait` variants

Blocking variant: `src/src/index.ts` 198-211 — `R.apply(sleep,
params)` where `sleep = R.curry(function(period, res){...; return
res})` busy-waits with `Atomics.wait` and returns its second
parameter.  Non-blocking variant: `src/unnamed/part_001` 152-163 —
`response = response ? response : ctx.$RESULT` then a `setTimeout`
resolving `response`; and `src/src/index.ts` 3664-3671, which
takes only a period and always resolves `ctx.$RESULT`.  Timing is
out of scope; each variant is modelled by its resolved value. -/

/-- JS runtime values, restricted to the primitives the wait verbs
handle. -/
inductive JsValue where
  | undefined
  | null
  | bool (b : Bool)
  | num (q : ℚ)
  | str (s : String)
deriving DecidableEq

/-- JS truthiness on `JsValue` (`NaN`, absent from the exact-number
model, is the only JS number beyond `0` that is falsy). -/
def truthy : JsValue → Bool
  | .undefined => false
  | .null => false
  | .bool b => b
  | .num q => q.num != 0
  | .str s => s != ""

/-- The body of the blocking wait's curried closure
(src/src/index.ts:203-208): after the `Atomics.wait` stall (not
modelled) it returns its second parameter `res`. -/
def sleepFn (l : List JsValue) : JsValue :=
  l.getD 1 .undefined

/-- Embedding of the blocking verb `wait`
(src/src/index.ts:198-211): `R.apply(R.curry(sleep), params)`
with `sleep` a 2-parameter closure. -/
def waitBlockVerb (params : List JsValue) : CurryOutcome JsValue :=
  Curry2.call ⟨sleepFn, []⟩ params

/-- Embedding of the non-blocking verb `wait` of
`src/unnamed/part_001` lines 152-163: `response = response ?
response : ctx.$RESULT`, then resolve `response` after the
timeout.  `result` is the context's current `$RESULT`; an absent
optional argument arrives as `undefined`. -/
def waitNB (result : JsValue) (period : ℚ) (response : JsValue) : JsValue :=
  let response := if truthy response then response else result
  response

/-- Embedding of the non-blocking verb `wait` of
`src/src/index.ts` lines 3664-3671: only a period parameter, the
promise always resolves with `ctx.$RESULT`. -/
def waitNBLatest (result : JsValue) (period : ℚ) : JsValue :=
  result

example : waitNB (.num 7) 1 (.str "welcome") = .str "welcome" := by decide
example : waitNB (.num 7) 2 .undefined = .num 7 := by decide
example : waitNB (.num 7) 1 (.num 0) = .num 7 := by decide

/-! ## DeferredExpressionEvaluator: the `eval` verb

Source: `src/unnamed/part_003` lines 169-188 (`evaluate`) and
190-202 (`argMapToObj`).  The external algebra engine
(`math.compile` / `compiledExpr.eval`, the vendored mathjs bundle,
outside `src/`) is modelled on the fragment the spec exercises:
sums of single-letter symbols and natural-number literals,
evaluated against a symbol binding; an unbound symbol is the
engine's thrown "undefined symbol" error, modelled as `none`. -/

/-- Compiled form of a formula in the modelled fragment.  The
fragment's arithmetic is integer-valued, on which JS doubles are
exact, so constants and results are modelled in `ℤ`. -/
inductive MExpr where
  | const (n : ℤ)
  | sym (c : Char)
  | add (l r : MExpr)

/-- Natural-number value of a digit list. -/
def natOfDigits (cs : List Char) : ℕ :=
  cs.foldl (fun n c => n * 10 + (c.toNat - 48)) 0

/-- Parse one token: a single lowercase letter is a symbol, a
digit string is a numeric literal. -/
def parseTermChars (cs : List Char) : Option MExpr :=
  if cs ≠ [] ∧ cs.all Char.isDigit then some (.const (natOfDigits cs))
  else
    match cs with
    | [c] => if 'a' ≤ c ∧ c ≤ 'z' then some (.sym c) else none
    | _ => none

/-- Parse the remaining `+ term` pairs of a sum, left
associated. -/
def parseSumTail (acc : MExpr) : List (List Char) → Option MExpr
  | [] => some acc
  | ['+'] :: t :: rest =>
    match parseTermChars t with
    | some e => parseSumTail (.add acc e) rest
    | none => none
  | _ => none

/-- Split a character list into whitespace-separated words. -/
def splitWordsAux (cur : List Char) : List Char → List (List Char)
  | [] => if cur.isEmpty then [] else [cur.reverse]
  | c :: rest =>
    if c = ' ' then
      if cur.isEmpty then splitWordsAux [] rest
      else cur.reverse :: splitWordsAux [] rest
    else splitWordsAux (c :: cur) rest

/-- Model of `math.compile` on the modelled fragment: parse a sum
of terms; `none` is the engine's `ExpressionSyntaxError`. -/
def mathCompile (s : String) : Option MExpr :=
  match splitWordsAux [] s.data with
  | [] => none
  | t :: rest =>
    match parseTermChars t with
    | some e => parseSumTail e rest
    | none => none

/-- Evaluate a compiled expression against a symbol binding;
`none` models the engine throwing on an unbound symbol. -/
def MExpr.evalIn (binding : List (Char × ℤ)) : MExpr → Option ℤ
  | .const n => some n
  | .sym c => lookupVar binding c
  | .add l r =>
    match l.evalIn binding, r.evalIn binding with
    | some a, some b => some (a + b)
    | _, _ => none

/-- Embedding of `argMapToObj` (src/unnamed/part_003:190-202): an
empty argument list gives `undefined` (`none`); otherwise argument
`i` is bound to the `i`-th lowercase letter (`'a'.charCodeAt(0) +
i`). -/
def argMapToObj (args : List ℤ) : Option (List (Char × ℤ)) :=
  if args.length = 0 then none
  else some (args.enum.map (fun p => (Char.ofNat ('a'.toNat + p.1), p.2)))

/-- The result of the `eval` verb: a concrete value (`none` inside
models an evaluation throw) or a deferred callable. -/
inductive EvalOutcome where
  | value (v : Option ℤ)
  | callable (f : List ℤ → Option ℤ)

/-- The deferred closure `lateFn` built by `evaluate`
(src/unnamed/part_003:177-182): later arguments are concatenated
after the already-supplied ones, rebound to fresh symbols, and the
compiled expression is evaluated; an `undefined` binding (empty
argument list) is the engine's empty scope. -/
def lateFn (e : MExpr) (args : List ℤ) (fnargs : List ℤ) : Option ℤ :=
  e.evalIn ((argMapToObj (args ++ fnargs)).getD [])

/-- Embedding of the verb `eval` (src/unnamed/part_003:169-188) on
a compiled expression.  `retFn` is `opts['function']`: `some
true`/`some false` are the strict `=== true`/`=== false` matches,
`none` is the absent flag. -/
def evaluate (retFn : Option Bool) (e : MExpr) (args : List ℤ) : EvalOutcome :=
  let objArg := argMapToObj args
  if retFn = some true then .callable (lateFn e args)
  else if retFn = some false then .value (e.evalIn (objArg.getD []))
  else if objArg.isSome then .value (e.evalIn (objArg.getD []))
  else .callable (lateFn e args)

/-- The full verb: compile the expression text (a `none` is the
engine's `ExpressionSyntaxError`), then run `evaluate`. -/
def evaluateStr (retFn : Option Bool) (s : String) (args : List ℤ) :
    Option EvalOutcome :=
  (mathCompile s).map (fun e => evaluate retFn e args)

/-- Immediate numeric result of the `eval` verb (`none` when it
failed, threw, or returned a callable instead). -/
def evalImmediate (retFn : Option Bool) (s : String) (args : List ℤ) :
    Option ℤ :=
  match evaluateStr retFn s args with
  | some (.value (some q)) => some q
  | _ => none

/-- Result of the `eval` verb's returned callable when later
invoked with `later` (`none` when the verb did not return a
callable, or the call threw). -/
def evalThenCall (retFn : Option Bool) (s : String) (args later : List ℤ) :
    Option ℤ :=
  match evaluateStr retFn s args with
  | some (.callable f) => f later
  | _ => none

/-- Whether the `eval` verb returned a deferred callable. -/
def returnsCallable (retFn : Option Bool) (s : String) (args : List ℤ) :
    Bool :=
  match evaluateStr retFn s args with
  | some (.callable _) => true
  | _ => false

example : evalImmediate none "a + b" [5, 4] = some 9 := by decide
example : evalThenCall (some true) "a + b" [5] [4] = some 9 := by decide
example : evalImmediate (some false) "9 + 4" [] = some 13 := by decide
example : returnsCallable none "a + b" [] = true := by decide
example : evalThenCall none "a + 4" [] [10] = some 14 := by decide

/-! ## The `get-element` verb

Source: `src/src/index.ts` 3689-3698 (also `src/unnamed/part_000`
80-89): successively index `v = v[position[i]]`, returning the
`undefined` sentinel as soon as a step yields `undefined`.  The
value fragment modelled: `undefined`, `null`, numbers,
string-keyed objects and arrays.  Indexing `undefined` or `null`
throws a JS `TypeError`, modelled as `none` at the `jsIndex`
level: the source's early return guards only against `undefined`
(`v === undefined`), so a `null` value produced along the path
escapes the check and the next step throws. -/

/-- JS data values reachable by `get-element` in the modelled
fragment. -/
inductive JVal where
  | undefined
  | null
  | num (q : ℚ)
  | obj (fields : List (String × JVal))
  | arr (elems : List JVal)

/-- A path element: a string property name or an integer index. -/
inductive JsKey where
  | prop (s : String)
  | idx (n : ℕ)

/-- Is this value the `undefined` sentinel (the JS `===
undefined` test of the source)?  JS `null` is not `undefined` and
fails this test. -/
def JVal.isUndefined : JVal → Bool
  | .undefined => true
  | _ => false

mutual

/-- Does the value contain no JS `null` anywhere (itself, object
field values, array elements, recursively)?  Indexing `null`
throws, so null-free data is the domain on which traversal cannot
throw past a defined base. -/
def JVal.noNull : JVal → Bool
  | .undefined => true
  | .null => false
  | .num _ => true
  | .obj fields => noNullFields fields
  | .arr elems => noNullList elems

def noNullFields : List (String × JVal) → Bool
  | [] => true
  | (_, v) :: rest => v.noNull && noNullFields rest

def noNullList : List JVal → Bool
  | [] => true
  | v :: rest => v.noNull && noNullList rest

end

/-- One JS indexing step `v[k]`; `none` models the `TypeError`
thrown when `v` is `undefined` or `null`.  Object fields are
looked up by name (an integer key reads the property of its
decimal string, as JS coerces); array elements by position, with
the `length` property; any other miss is `undefined`. -/
def jsIndex : JVal → JsKey → Option JVal
  | .undefined, _ => none
  | .null, _ => none
  | .num _, _ => some .undefined
  | .obj fields, .prop s => some ((lookupVar fields s).getD .undefined)
  | .obj fields, .idx n => some ((lookupVar fields (Nat.repr n)).getD .undefined)
  | .arr elems, .idx n => some (elems.getD n .undefined)
  | .arr elems, .prop s =>
    if s = "length" then some (.num elems.length) else some .undefined

/-- Embedding of the verb `get-element`
(src/src/index.ts:3689-3698): fold the path over `jsIndex`,
returning `undefined` as soon as a step produces it. -/
def getElement (items : JVal) : List JsKey → Option JVal
  | [] => some items
  | k :: rest =>
    match jsIndex items k with
    | none => none
    | some v => if v.isUndefined then some .undefined else getElement v rest

/-- The object `{a:1, b:2, c:{d:5}}` of the spec's traversal
example. -/
def exampleObj : JVal :=
  .obj [("a", .num 1), ("b", .num 2), ("c", .obj [("d", .num 5)])]

example : getElement exampleObj [.prop "c", .prop "d"] = some (.num 5) := rfl
example : getElement exampleObj [.prop "c", .prop "f"] = some .undefined := rfl
example : getElement (.arr [.num 1, .num 2, .num 3]) [.idx 1]
    = some (.num 2) := rfl
example : getElement (.arr [.arr [.num 1, .num 2], .arr [.num 3, .num 4]])
    [.idx 1, .idx 1] = some (.num 4) := rfl

/-! ## Helper lemmas -/

lemma dollar_append_ne (t : String) : "$" ++ t ≠ t := by
  intro h
  have h2 := congrArg String.data h
  rw [String.data_append] at h2
  have h3 := congrArg List.length h2
  simp at h3

/-- The curry adapter composes to arbitrary depth: a chain of
invocations whose cumulative argument counts stay below the arity
until the last one, and reach it at the last one, produces the
wrapped function applied to all arguments in order. -/
lemma curry2_chain_saturates {α : Type} (fn : List α → α) :
    ∀ (argss : List (List α)) (received : List α), argss ≠ [] →
      (∀ i, i + 1 < argss.length →
        (received ++ (argss.take (i + 1)).flatten).length < 2) →
      2 ≤ (received ++ argss.flatten).length →
      invokeChain (.moreArgs ⟨fn, received⟩) argss
        = .ok (.result (fn (received ++ argss.flatten))) := by
  intro argss
  induction argss with
  | nil => intro received hne _ _; exact absurd rfl hne
  | cons a rest ih =>
    intro received _ hpre hsat
    cases rest with
    | nil =>
      have hlen : 2 ≤ received.length + a.length := by
        simpa using hsat
      simp [invokeChain, CurryOutcome.invoke, Curry2.call, hlen]
    | cons b rest2 =>
      have hlt : received.length + a.length < 2 := by
        have := hpre 0 (by simp)
        simpa using this
      have hcall : Curry2.call ⟨fn, received⟩ a
          = .moreArgs ⟨fn, received ++ a⟩ := by
        have := Nat.not_le.mpr hlt
        simp [Curry2.call]
        omega
      have step : invokeChain (.moreArgs ⟨fn, received⟩) (a :: b :: rest2)
          = invokeChain (.moreArgs ⟨fn, received ++ a⟩) (b :: rest2) := by
        simp [invokeChain, CurryOutcome.invoke, hcall]
      rw [step]
      have hres := ih (received ++ a) (by simp)
        (fun i hi => by
          have := hpre (i + 1) (by simpa using hi)
          simpa [List.append_assoc] using this)
        (by simpa [List.append_assoc] using hsat)
      simpa [List.append_assoc] using hres

/-- A successful association-list lookup returns a stored value. -/
lemma lookupVar_mem {κ α : Type} [DecidableEq κ] :
    ∀ (l : List (κ × α)) (k : κ) (w : α),
      lookupVar l k = some w → ∃ k2, (k2, w) ∈ l := by
  intro l
  induction l with
  | nil => intro k w h; simp [lookupVar] at h
  | cons p rest ih =>
    intro k w h
    obtain ⟨k2, v⟩ := p
    rw [lookupVar] at h
    by_cases hk : k2 = k
    · rw [if_pos hk] at h
      have hvw : v = w := by simpa using h
      exact ⟨k2, by simp [hvw]⟩
    · rw [if_neg hk] at h
      obtain ⟨k3, hm⟩ := ih k w h
      exact ⟨k3, List.mem_cons_of_mem _ hm⟩

/-- Every field value of a null-free field list is null-free. -/
lemma noNullFields_lookup :
    ∀ (fields : List (String × JVal)), noNullFields fields = true →
      ∀ (k2 : String) (w : JVal), (k2, w) ∈ fields → w.noNull = true := by
  intro fields
  induction fields with
  | nil => intro _ k2 w h; simp at h
  | cons p rest ih =>
    intro hall k2 w hmem
    obtain ⟨kp, vp⟩ := p
    rw [noNullFields, Bool.and_eq_true] at hall
    rcases List.mem_cons.mp hmem with heq | hmem2
    · cases heq
      exact hall.1
    · exact ih hall.2 k2 w hmem2

/-- Positional access (with the `undefined` default) into a
null-free element list is null-free. -/
lemma noNullList_getD :
    ∀ (elems : List JVal), noNullList elems = true →
      ∀ n, (elems.getD n .undefined).noNull = true := by
  intro elems
  induction elems with
  | nil => intro _ n; rfl
  | cons x rest ih =>
    intro hall n
    rw [noNullList, Bool.and_eq_true] at hall
    cases n with
    | zero => simpa [List.getD] using hall.1
    | succ m => simpa [List.getD] using ih hall.2 m

/-- Indexing a defined, null-free value always succeeds (no JS
`TypeError`) and the step's result is itself null-free. -/
lemma jsIndex_defined_noNull (items : JVal) (k : JsKey)
    (hdef : items.isUndefined = false) (hnn : items.noNull = true) :
    ∃ v, jsIndex items k = some v ∧ v.noNull = true := by
  cases items with
  | undefined => simp [JVal.isUndefined] at hdef
  | null => simp [JVal.noNull] at hnn
  | num q => exact ⟨.undefined, rfl, rfl⟩
  | obj fields =>
    have hf : noNullFields fields = true := by
      simpa [JVal.noNull] using hnn
    cases k with
    | prop s =>
      refine ⟨(lookupVar fields s).getD .undefined, rfl, ?_⟩
      cases hl : lookupVar fields s with
      | none => rfl
      | some w =>
        obtain ⟨k2, hm⟩ := lookupVar_mem fields s w hl
        simpa using noNullFields_lookup fields hf k2 w hm
    | idx n =>
      refine ⟨(lookupVar fields (Nat.repr n)).getD .undefined, rfl, ?_⟩
      cases hl : lookupVar fields (Nat.repr n) with
      | none => rfl
      | some w =>
        obtain ⟨k2, hm⟩ := lookupVar_mem fields (Nat.repr n) w hl
        simpa using noNullFields_lookup fields hf k2 w hm
  | arr elems =>
    have he : noNullList elems = true := by
      simpa [JVal.noNull] using hnn
    cases k with
    | prop s =>
      by_cases hs : s = "length"
      · exact ⟨.num elems.length, by simp [jsIndex, hs], rfl⟩
      · exact ⟨.undefined, by simp [jsIndex, hs], rfl⟩
    | idx n => exact ⟨elems.getD n .undefined, rfl, noNullList_getD elems he n⟩

/-! ## Claim theorems -/

/-- C1 counterexample: assigning under a name that already starts
with `$` (here `"$val"`) stores nothing under the un-prefixed
trimmed name `"val"` — the lookup yields the `undefined` sentinel,
not the assigned value, refuting the claim's "retrievable under
the un-prefixed trimmed name … in particular when n itself already
starts with `$`". -/
theorem c1_dollar_name_counterexample :
    lookupVar (asVerb ([] : List (String × ℕ)) "$val" 5).1 "val" = none
      ∧ none ≠ some 5 := by decide

/-- C1 (amended): after `as`/`assign` with raw name `n` and value
`v`, the value is retrievable under the trimmed name itself and
under its `$`-form (prefix added only when absent) — these are the
two keys the code writes — and the call returns `v` unchanged.
When the trimmed name already starts with `$` the two keys
coincide, and the `$`-stripped name is not written. -/
theorem c1_as_stores_trimmed_and_dollar {α : Type}
    (vars : List (String × α)) (n : String) (v : α) :
    (asVerb vars n v).2 = v ∧
    lookupVar (asVerb vars n v).1 (jsTrim n) = some v ∧
    lookupVar (asVerb vars n v).1 (dollarForm (jsTrim n)) = some v := by
  refine ⟨rfl, ?_, ?_⟩ <;> by_cases h : headIsDollar (jsTrim n) <;>
    simp [asVerb, setVar, dollarForm, h, lookupVar, dollar_append_ne]

/-- C2: the curried `pow` verb — saturated call `power 2 3 = 8`;
`power 2` yields a callable sending `3` to `8`; `power` with no
arguments yields a callable sending `(2,3)` to `8`; and partial
application composes to arbitrary depth, producing `Math.pow` of
all accumulated arguments once the combined count across
successive invocations reaches the declared arity 2. -/
theorem c2_power_currying :
    (powerVerb [2, 3]).resultVal = some 8 ∧
    invokeVal (powerVerb [2]) [3] = some 8 ∧
    invokeVal (powerVerb []) [2, 3] = some 8 ∧
    ∀ argss : List (List ℕ), argss ≠ [] →
      (∀ i, i + 1 < argss.length →
        ((argss.take (i + 1)).flatten).length < 2) →
      2 ≤ argss.flatten.length →
      invokeChain (powerVerb []) argss
        = .ok (.result (mathPowFn argss.flatten)) := by
  refine ⟨by decide, by decide, by decide, ?_⟩
  intro argss hne hpre hsat
  have hstart : powerVerb [] = .moreArgs ⟨mathPowFn, []⟩ := by
    simp [powerVerb, Curry2.call]
  rw [hstart]
  simpa using curry2_chain_saturates mathPowFn argss [] hne
    (fun i hi => by simpa using hpre i hi) (by simpa using hsat)

/-- C2 witness: the chain that calls `power` with no arguments,
then `2`, then `3`, saturates on the third step and yields 8. -/
theorem c2_power_currying_witness :
    (([[2], [3]] : List (List ℕ)) ≠ [] ∧
      (∀ i, i + 1 < ([[2], [3]] : List (List ℕ)).length →
        ((([[2], [3]] : List (List ℕ)).take (i + 1)).flatten).length < 2) ∧
      2 ≤ ([[2], [3]] : List (List ℕ)).flatten.length) ∧
    invokeChain (powerVerb []) [[2], [3]] = .ok (.result 8) := by
  have hpre : ∀ i, i + 1 < ([[2], [3]] : List (List ℕ)).length →
      ((([[2], [3]] : List (List ℕ)).take (i + 1)).flatten).length < 2 := by
    intro i hi
    have hi2 : i + 1 < 2 := by simpa using hi
    have : i = 0 := by omega
    subst this; decide
  exact ⟨⟨by decide, hpre, by decide⟩,
    c2_power_currying.2.2.2 [[2], [3]] (by decide) hpre (by decide)⟩

/-- C3: `math-min`/`math-max` are curried at effective arity 2 —
`min 9` returns a callable with `f 3 = 3`, `min 7 1 = 1`
directly — yet a single invocation with 2 or more numbers reduces
over the whole supplied list at once (`min 5.1 1.2 3.3 = 1.2`,
`max 5.1 1.2 3.3 = 5.1`), rather than partially applying or
truncating to the first two. -/
theorem c3_min_max_variable_arity :
    (mathMinVerb [9]).isCallable = true ∧
    invokeVal (mathMinVerb [9]) [3] = some 3 ∧
    (mathMinVerb [7, 1]).resultVal = some 1 ∧
    (mathMinVerb [5.1, 1.2, 3.3]).resultVal = some 1.2 ∧
    (mathMaxVerb [5.1, 1.2, 3.3]).resultVal = some 5.1 ∧
    ∀ num : List ℚ, 2 ≤ num.length →
      (mathMinVerb num).resultVal = some (jsMinList num) ∧
      (mathMaxVerb num).resultVal = some (jsMaxList num) := by
  refine ⟨rfl, ?_, ?_, ?_, ?_, ?_⟩
  · norm_num [invokeVal, mathMinVerb, Curry2.call, CurryOutcome.invoke,
      CurryOutcome.resultVal, jsMinList, jsMin2]
  · norm_num [mathMinVerb, Curry2.call, CurryOutcome.resultVal, jsMinList,
      jsMin2]
  · norm_num [mathMinVerb, Curry2.call, CurryOutcome.resultVal, jsMinList,
      jsMin2]
  · norm_num [mathMaxVerb, Curry2.call, CurryOutcome.resultVal, jsMaxList,
      jsMax2]
  · intro num h
    constructor <;> simp [mathMinVerb, mathMaxVerb, Curry2.call, h,
      CurryOutcome.resultVal]

/-- C3 witness: at the concrete list `[5.1, 1.2, 3.3]` (length 3 ≥
2) the verbs reduce the whole list immediately. -/
theorem c3_min_max_variable_arity_witness :
    2 ≤ ([5.1, 1.2, 3.3] : List ℚ).length ∧
    (mathMinVerb [5.1, 1.2, 3.3]).resultVal
      = some (jsMinList [5.1, 1.2, 3.3]) ∧
    (mathMaxVerb [5.1, 1.2, 3.3]).resultVal
      = some (jsMaxList [5.1, 1.2, 3.3]) :=
  ⟨by decide, c3_min_max_variable_arity.2.2.2.2.2 [5.1, 1.2, 3.3] (by decide)⟩

/-- C4: the `eval` verb's tri-state `function` flag — flag absent
with arguments `5, 4` evaluates `"a + b"` immediately to 9; flag
`true` with argument `5` defers, and the callable applied to `4`
gives 9 (later arguments concatenated after the supplied ones into
a fresh binding); flag `false` evaluates `"9 + 4"` immediately
against the empty binding to 13; flag absent with no arguments
returns a deferred callable. -/
theorem c4_eval_function_flag :
    evalImmediate none "a + b" [5, 4] = some 9 ∧
    evalThenCall (some true) "a + b" [5] [4] = some 9 ∧
    evalImmediate (some false) "9 + 4" [] = some 13 ∧
    returnsCallable none "a + b" [] = true := by decide

/-- C5 counterexample: the non-blocking wait tests the supplied
response for JS truthiness, not for presence — with `$RESULT = 7`
and the explicitly supplied (falsy) response `0`, the verb
resolves with 7, not with the supplied 0, refuting "resolves with
the explicitly supplied response value" for every supplied
response. -/
theorem c5_falsy_response_counterexample :
    waitNB (.num 7) 1 (.num 0) = .num 7 ∧
    waitNB (.num 7) 1 (.num 0) ≠ .num 0 := by
  constructor <;> decide

/-- C5 (amended): the non-blocking wait of part_001 resolves with
the supplied response when that response is truthy, and with the
context's current `$RESULT` otherwise — in particular when no
response was supplied (JS passes `undefined`).  The
`src/src/index.ts` variant takes no response parameter and always
resolves with `$RESULT`. -/
theorem c5_waitNB_resolution (result : JsValue) (period : ℚ)
    (response : JsValue) :
    (truthy response = true → waitNB result period response = response) ∧
    (truthy response = false → waitNB result period response = result) ∧
    waitNB result period .undefined = result ∧
    waitNBLatest result period = result := by
  refine ⟨fun h => ?_, fun h => ?_, rfl, rfl⟩ <;> simp [waitNB, h]

/-- C5 witness: with `$RESULT = 7`, a truthy response
`"welcome"` is returned, and an absent response falls back to 7. -/
theorem c5_waitNB_resolution_witness :
    truthy (.str "welcome") = true ∧
    waitNB (.num 7) 2 (.str "welcome") = .str "welcome" := by
  refine ⟨by decide, ?_⟩
  exact (c5_waitNB_resolution (.num 7) 2 (.str "welcome")).1 (by decide)

/-- C6: the blocking wait verb is curried at variable arity 1 or
2 — called with only a period it returns a callable that, given a
response later, returns that response; called with period and
response together it returns the response (after the
`Atomics.wait` stall, whose duration is not modelled). -/
theorem c6_blocking_wait_curry (p r : JsValue) :
    (waitBlockVerb [p]).isCallable = true ∧
    invokeVal (waitBlockVerb [p]) [r] = some r ∧
    (waitBlockVerb [p, r]).resultVal = some r :=
  ⟨rfl, rfl, rfl⟩

/-- C7 counterexample: assigning under the all-whitespace name
`"   "` (which trims to the empty string) does not fail — there is
no empty-name check and no `InvalidNameError` in the code; the
value is stored under the empty key and under `"$"`, and returned. -/
theorem c7_empty_name_counterexample :
    asVerb ([] : List (String × ℕ)) "   " 5 = ([("$", 5), ("", 5)], 5) := by
  decide

/-- C7 (amended): the assignment verbs trim the raw name, and the
assignment succeeds for every name — including one that trims to
empty, in which case the value is stored under the keys `""` and
`"$"` — always returning the value; no `InvalidNameError` is ever
raised. -/
theorem c7_assign_never_fails {α : Type} (vars : List (String × α))
    (n : String) (v : α) :
    (asVerb vars n v).2 = v ∧ (assignVerb vars n v).2 = v ∧
    (jsTrim n = "" →
      lookupVar (asVerb vars n v).1 "$" = some v ∧
      lookupVar (asVerb vars n v).1 "" = some v) := by
  refine ⟨rfl, rfl, fun h => ?_⟩
  simp [asVerb, setVar, h, headIsDollar, lookupVar]

/-- C7 witness: the all-whitespace name `"   "` trims to empty and
the value is still stored and retrievable. -/
theorem c7_assign_never_fails_witness :
    jsTrim "   " = "" ∧
    lookupVar (asVerb ([] : List (String × ℕ)) "   " 5).1 "$" = some 5 ∧
    lookupVar (asVerb ([] : List (String × ℕ)) "   " 5).1 "" = some 5 :=
  ⟨by decide, (c7_assign_never_fails [] "   " 5).2.2 (by decide)⟩

/-- C8: a fully-saturated call to the curried `pow` verb produces
the resolved `Result` 8, and invoking that resolved value as if it
were still a function — with any argument list — is the
`NotCallableError`, never a silently wrong value. -/
theorem c8_result_not_callable :
    (powerVerb [2, 3]).resultVal = some 8 ∧
    ∀ args : List ℕ, (powerVerb [2, 3]).invoke args
      = .error .notCallable :=
  ⟨by decide, fun _ => rfl⟩

/-- C9 counterexample: on `{c: null}` with path `c, d` the source
passes the `v === undefined` check at `v = null` and then
evaluates `null['d']`, which throws a `TypeError` (`none` in the
model) — a traversal with a missing path element that throws
instead of returning the `undefined` sentinel, refuting the
claim's universally quantified "never throwing". -/
theorem c9_null_traversal_counterexample :
    getElement (.obj [("c", .null)]) [.prop "c", .prop "d"] = none ∧
    getElement (.obj [("c", .null)]) [.prop "c", .prop "d"]
      ≠ some .undefined := by
  refine ⟨rfl, ?_⟩
  intro h
  rw [show getElement (JVal.obj [("c", JVal.null)])
      [JsKey.prop "c", JsKey.prop "d"] = none from rfl] at h
  exact Option.noConfusion h

/-- C9 (amended): `get-element` returns the value reached by
successive indexing — on `{a:1,b:2,c:{d:5}}` the path `c, d`
yields 5 and the path `c, f` yields the `undefined` sentinel — and
for every defined (non-`undefined`) base value containing no JS
`null` and every path it never throws: the early `undefined` check
turns every miss into the sentinel before the next indexing step
could fail.  A `null` encountered along the path escapes that
check and the next step throws. -/
theorem c9_get_element_traversal :
    getElement exampleObj [.prop "c", .prop "d"] = some (.num 5) ∧
    getElement exampleObj [.prop "c", .prop "f"] = some .undefined ∧
    ∀ (items : JVal) (position : List JsKey), items.isUndefined = false →
      items.noNull = true → (getElement items position).isSome = true := by
  refine ⟨rfl, rfl, ?_⟩
  intro items position
  induction position generalizing items with
  | nil => intro _ _; rfl
  | cons k rest ih =>
    intro hdef hnn
    obtain ⟨v, hv, hvnn⟩ := jsIndex_defined_noNull items k hdef hnn
    rw [getElement, hv]
    by_cases hu : v.isUndefined
    · simp [hu]
    · simpa [hu] using ih v (by simpa using hu) hvnn

/-- C9 witness: the example object is a defined, null-free base,
and traversal on it returns without throwing. -/
theorem c9_get_element_traversal_witness :
    exampleObj.isUndefined = false ∧ exampleObj.noNull = true ∧
    (getElement exampleObj [.prop "a"]).isSome = true :=
  ⟨rfl, rfl, c9_get_element_traversal.2.2 exampleObj [.prop "a"] rfl rfl⟩

/-- C10: the verbs `as` and `assign` are extensionally equivalent:
for every environment, raw name and value they perform the same
update and return the same value — their bodies are identical. -/
theorem c10_as_assign_equivalent {α : Type} (vars : List (String × α))
    (n : String) (v : α) :
    asVerb vars n v = assignVerb vars n v := rfl
